import Mathlib

/-!
# img-router: verification of the core routing / extraction / adapter logic

Shallow embedding of the core of the `img-router` gateway (main.ts and
config.ts): the credential router `detectProvider`, the transcript
extractor `extractPromptAndImages`, the ModelScope submit-and-poll loop,
the HuggingFace failover loop with SSE parsing, and the response
normalizer.  Network calls, the host JSON parser, and the host
string-to-number conversion are abstracted as explicit parameters; all
string manipulation is modelled over `String.data` (the source operates
on ASCII protocol strings).
-/

namespace ImgRouter

/-- The provider tag, `type Provider` in the source. -/
inductive Provider
  | VolcEngine
  | Gitee
  | ModelScope
  | HuggingFace
  | Unknown
deriving DecidableEq, Repr

/-- One routing-observability event, as emitted by `logProviderRouting`:
the resolved provider and the logged fragment of the credential. -/
structure RoutingEvent where
  provider : Provider
  keyStart : String
deriving DecidableEq, Repr

/-- JS `s.startsWith(p)` (character-for-character prefix test). -/
def jsStartsWith (s p : String) : Bool :=
  p.data.isPrefixOf s.data

/-- JS `s.substring(0, n)` for ASCII strings: the first `n` characters
(the whole string when it is shorter). -/
def jsTake (s : String) (n : Nat) : String :=
  String.mk (s.data.take n)

/-- The character class `[0-9a-f]` under the `i` regexp flag. -/
def isHexCI (c : Char) : Bool :=
  (('0' ≤ c ∧ c ≤ '9') ∨ ('a' ≤ c ∧ c ≤ 'f') ∨ ('A' ≤ c ∧ c ≤ 'F') : Prop)

/-- The character class `[a-zA-Z0-9]`. -/
def isAlnumAscii (c : Char) : Bool :=
  (('0' ≤ c ∧ c ≤ '9') ∨ ('a' ≤ c ∧ c ≤ 'z') ∨ ('A' ≤ c ∧ c ≤ 'Z') : Prop)

/-- Consume exactly `n` case-insensitive hex digits, returning the rest of
the input; models a `[0-9a-f]{n}` regexp atom under the `i` flag. -/
def takeHex : Nat → List Char → Option (List Char)
  | 0, cs => some cs
  | _ + 1, [] => none
  | n + 1, c :: cs => if isHexCI c then takeHex n cs else none

/-- Consume a literal `-`, returning the rest of the input. -/
def expectDash (cs : List Char) : Option (List Char) :=
  match cs with
  | c :: rest => if c = '-' then some rest else none
  | [] => none

/-- The source's anchored regexp
`/^[0-9a-f]{8}-[0-9a-f]{4}-[0-9a-f]{4}-[0-9a-f]{4}-[0-9a-f]{12}$/i`,
modelled as the corresponding sequential matcher: 8 hex digits, dash,
4 hex digits, dash, 4, dash, 4, dash, 12, end of input. -/
def matchUuidSrc (s : String) : Bool :=
  decide ((((((((((takeHex 8 s.data).bind expectDash).bind
    (takeHex 4)).bind expectDash).bind (takeHex 4)).bind expectDash).bind
    (takeHex 4)).bind expectDash).bind (takeHex 12)) = some [])

/-- The source's anchored regexp `/^[a-zA-Z0-9]{30,60}$/`: the whole
string is 30–60 alphanumeric characters. -/
def matchGiteeSrc (s : String) : Bool :=
  decide (30 ≤ s.data.length) && decide (s.data.length ≤ 60) &&
    s.data.all isAlnumAscii

/-- `detectProvider` from main.ts, with its `logProviderRouting` side
effect made explicit: the result provider together with the list of
routing events emitted during the call.  The empty-credential guard
(`if (!apiKey)`) returns before any logging. -/
def detectProvider (apiKey : String) : Provider × List RoutingEvent :=
  if apiKey = "" then (.Unknown, [])
  else if jsStartsWith apiKey "hf_" then
    (.HuggingFace, [⟨.HuggingFace, jsTake apiKey 4⟩])
  else if jsStartsWith apiKey "ms-" then
    (.ModelScope, [⟨.ModelScope, jsTake apiKey 4⟩])
  else if matchUuidSrc apiKey then
    (.VolcEngine, [⟨.VolcEngine, jsTake apiKey 4⟩])
  else if matchGiteeSrc apiKey then
    (.Gitee, [⟨.Gitee, jsTake apiKey 4⟩])
  else (.Unknown, [⟨.Unknown, jsTake apiKey 4⟩])

/-- Follows the spec's words (§4.1): "canonical UUID form (8-4-4-4-12
hex groups, case-insensitive)", stated positionally — length 36,
dashes at offsets 8, 13, 18 and 23, hex digits everywhere else. -/
def isCanonicalUuid (s : String) : Bool :=
  let cs := s.data
  decide (cs.length = 36) &&
  (cs.take 8).all isHexCI && decide (cs.getD 8 ' ' = '-') &&
  ((cs.drop 9).take 4).all isHexCI && decide (cs.getD 13 ' ' = '-') &&
  ((cs.drop 14).take 4).all isHexCI && decide (cs.getD 18 ' ' = '-') &&
  ((cs.drop 19).take 4).all isHexCI && decide (cs.getD 23 ' ' = '-') &&
  (cs.drop 24).all isHexCI

/-- Follows the spec's words (§4.1): "matches `[A-Za-z0-9]{30,60}`
(entire string)". -/
def isGiteeShape (s : String) : Bool :=
  decide (30 ≤ s.data.length) && decide (s.data.length ≤ 60) &&
    s.data.all isAlnumAscii

/-- Follows the spec's words (§4.1): the classification rules in their
fixed order, first match wins. -/
def classifySpec (credential : String) : Provider :=
  if credential = "" then .Unknown
  else if jsStartsWith credential "hf_" then .HuggingFace
  else if jsStartsWith credential "ms-" then .ModelScope
  else if isCanonicalUuid credential then .VolcEngine
  else if isGiteeShape credential then .Gitee
  else .Unknown

/-- The grouped decomposition behind both UUID formulations:
8, 4, 4, 4 and 12 hex digits separated by dashes. -/
def UuidShape (cs : List Char) : Prop :=
  ∃ g1 g2 g3 g4 g5 : List Char,
    cs = g1 ++ '-' :: (g2 ++ '-' :: (g3 ++ '-' :: (g4 ++ '-' :: g5))) ∧
    g1.length = 8 ∧ g2.length = 4 ∧ g3.length = 4 ∧ g4.length = 4 ∧
    g5.length = 12 ∧
    g1.all isHexCI = true ∧ g2.all isHexCI = true ∧ g3.all isHexCI = true ∧
    g4.all isHexCI = true ∧ g5.all isHexCI = true

theorem takeHex_eq (n : Nat) (cs : List Char) :
    takeHex n cs =
      if n ≤ cs.length ∧ (cs.take n).all isHexCI = true
      then some (cs.drop n) else none := by
  induction n generalizing cs with
  | zero => simp [takeHex]
  | succ n ih =>
    cases cs with
    | nil => simp [takeHex]
    | cons c cs =>
      by_cases hc : isHexCI c = true
      · simp [takeHex, hc, ih, Nat.succ_le_succ_iff]
      · simp [takeHex, hc]

theorem takeHex_some_iff (n : Nat) (cs rest : List Char) :
    takeHex n cs = some rest ↔
      ∃ pre, cs = pre ++ rest ∧ pre.length = n ∧ pre.all isHexCI = true := by
  rw [takeHex_eq]
  constructor
  · intro h
    split at h
    · rename_i hcond
      refine ⟨cs.take n, ?_, ?_, hcond.2⟩
      · have := (Option.some.injEq _ _).mp h
        rw [← this]
        exact (List.take_append_drop n cs).symm
      · exact List.length_take_of_le hcond.1
    · exact absurd h (by simp)
  · rintro ⟨pre, rfl, rfl, hall⟩
    rw [if_pos]
    · rw [List.drop_left]
    · constructor
      · simp
      · rwa [List.take_left]

theorem expectDash_eq_some (cs r : List Char) :
    expectDash cs = some r ↔ cs = '-' :: r := by
  cases cs with
  | nil => simp [expectDash]
  | cons c t =>
    simp only [expectDash]
    by_cases hc : c = '-'
    · subst hc; simp
    · simp [hc]

theorem drop_cons_of_getD (cs : List Char) (a : Nat) (h : a < cs.length)
    (hd : cs.getD a ' ' = '-') : cs.drop a = '-' :: cs.drop (a + 1) := by
  rw [List.drop_eq_getElem_cons h]
  rw [List.getD_eq_getElem?_getD, List.getElem?_eq_getElem h,
    Option.getD_some] at hd
  rw [hd]

theorem getD_of_drop_cons (cs : List Char) (a : Nat) (c : Char)
    (r : List Char) (h : cs.drop a = c :: r) : cs.getD a ' ' = c := by
  have hlt : a < cs.length := by
    by_contra hge
    rw [List.drop_eq_nil_of_le (by omega)] at h
    exact List.noConfusion h
  rw [List.drop_eq_getElem_cons hlt] at h
  rw [List.getD_eq_getElem?_getD, List.getElem?_eq_getElem hlt,
    Option.getD_some]
  exact (List.cons.injEq _ _ _ _ ▸ h).1

theorem expectDash_dash (r : List Char) : expectDash ('-' :: r) = some r := by
  simp [expectDash]

theorem matchUuidSrc_iff (s : String) :
    matchUuidSrc s = true ↔ UuidShape s.data := by
  unfold matchUuidSrc
  rw [decide_eq_true_iff]
  constructor
  · intro h
    simp only [Option.bind_eq_some] at h
    obtain ⟨a8, ⟨a7, ⟨a6, ⟨a5, ⟨a4, ⟨a3, ⟨a2, ⟨a1, h1, h2⟩, h3⟩, h4⟩,
      h5⟩, h6⟩, h7⟩, h8⟩, h9⟩ := h
    obtain ⟨g1, e1, l1, x1⟩ := (takeHex_some_iff _ _ _).mp h1
    obtain ⟨g2, e2, l2, x2⟩ := (takeHex_some_iff _ _ _).mp h3
    obtain ⟨g3, e3, l3, x3⟩ := (takeHex_some_iff _ _ _).mp h5
    obtain ⟨g4, e4, l4, x4⟩ := (takeHex_some_iff _ _ _).mp h7
    obtain ⟨g5, e5, l5, x5⟩ := (takeHex_some_iff _ _ _).mp h9
    rw [expectDash_eq_some] at h2 h4 h6 h8
    rw [List.append_nil] at e5
    refine ⟨g1, g2, g3, g4, g5, ?_, l1, l2, l3, l4, l5, x1, x2, x3, x4, x5⟩
    rw [e1, h2, e2, h4, e3, h6, e4, h8, e5]
  · rintro ⟨g1, g2, g3, g4, g5, hdec, l1, l2, l3, l4, l5, x1, x2, x3, x4, x5⟩
    rw [show takeHex 8 s.data =
        some ('-' :: (g2 ++ '-' :: (g3 ++ '-' :: (g4 ++ '-' :: g5)))) from
      (takeHex_some_iff _ _ _).mpr ⟨g1, hdec, l1, x1⟩]
    simp only [Option.some_bind]
    rw [expectDash_dash]
    simp only [Option.some_bind]
    rw [show takeHex 4 (g2 ++ '-' :: (g3 ++ '-' :: (g4 ++ '-' :: g5))) =
        some ('-' :: (g3 ++ '-' :: (g4 ++ '-' :: g5))) from
      (takeHex_some_iff _ _ _).mpr ⟨g2, rfl, l2, x2⟩]
    simp only [Option.some_bind]
    rw [expectDash_dash]
    simp only [Option.some_bind]
    rw [show takeHex 4 (g3 ++ '-' :: (g4 ++ '-' :: g5)) =
        some ('-' :: (g4 ++ '-' :: g5)) from
      (takeHex_some_iff _ _ _).mpr ⟨g3, rfl, l3, x3⟩]
    simp only [Option.some_bind]
    rw [expectDash_dash]
    simp only [Option.some_bind]
    rw [show takeHex 4 (g4 ++ '-' :: g5) = some ('-' :: g5) from
      (takeHex_some_iff _ _ _).mpr ⟨g4, rfl, l4, x4⟩]
    simp only [Option.some_bind]
    rw [expectDash_dash]
    simp only [Option.some_bind]
    rw [show takeHex 12 g5 = some [] from
      (takeHex_some_iff _ _ _).mpr ⟨g5, (List.append_nil g5).symm, l5, x5⟩]

theorem isCanonicalUuid_iff (s : String) :
    isCanonicalUuid s = true ↔ UuidShape s.data := by
  unfold isCanonicalUuid UuidShape
  generalize s.data = cs
  simp only [Bool.and_eq_true, decide_eq_true_eq]
  constructor
  · rintro ⟨⟨⟨⟨⟨⟨⟨⟨⟨hlen, hg1⟩, h8⟩, hg2⟩, h13⟩, hg3⟩, h18⟩, hg4⟩, h23⟩, hg5⟩
    have k8 : cs.drop 8 = '-' :: cs.drop 9 :=
      drop_cons_of_getD cs 8 (by omega) h8
    have k13 : cs.drop 13 = '-' :: cs.drop 14 :=
      drop_cons_of_getD cs 13 (by omega) h13
    have k18 : cs.drop 18 = '-' :: cs.drop 19 :=
      drop_cons_of_getD cs 18 (by omega) h18
    have k23 : cs.drop 23 = '-' :: cs.drop 24 :=
      drop_cons_of_getD cs 23 (by omega) h23
    have e19 : cs.drop 19 = (cs.drop 19).take 4 ++ '-' :: cs.drop 24 := by
      conv_lhs => rw [← List.take_append_drop 4 (cs.drop 19)]
      congr 1
      rw [List.drop_drop]
      norm_num
      exact k23
    have e14 : cs.drop 14 = (cs.drop 14).take 4 ++ '-' :: cs.drop 19 := by
      conv_lhs => rw [← List.take_append_drop 4 (cs.drop 14)]
      congr 1
      rw [List.drop_drop]
      norm_num
      exact k18
    have e9 : cs.drop 9 = (cs.drop 9).take 4 ++ '-' :: cs.drop 14 := by
      conv_lhs => rw [← List.take_append_drop 4 (cs.drop 9)]
      congr 1
      rw [List.drop_drop]
      norm_num
      exact k13
    refine ⟨cs.take 8, (cs.drop 9).take 4, (cs.drop 14).take 4,
      (cs.drop 19).take 4, cs.drop 24, ?_, ?_, ?_, ?_, ?_, ?_,
      hg1, hg2, hg3, hg4, hg5⟩
    · calc cs = cs.take 8 ++ cs.drop 8 := (List.take_append_drop 8 cs).symm
        _ = cs.take 8 ++ '-' :: cs.drop 9 := by rw [k8]
        _ = cs.take 8 ++ '-' :: ((cs.drop 9).take 4 ++ '-' :: cs.drop 14) := by
              conv_lhs => rw [e9]
        _ = cs.take 8 ++ '-' :: ((cs.drop 9).take 4 ++
              '-' :: ((cs.drop 14).take 4 ++ '-' :: cs.drop 19)) := by
              conv_lhs => rw [e14]
        _ = cs.take 8 ++ '-' :: ((cs.drop 9).take 4 ++
              '-' :: ((cs.drop 14).take 4 ++ '-' :: ((cs.drop 19).take 4 ++
              '-' :: cs.drop 24))) := by
              conv_lhs => rw [e19]
    · exact List.length_take_of_le (by omega)
    · rw [List.length_take, List.length_drop]; omega
    · rw [List.length_take, List.length_drop]; omega
    · rw [List.length_take, List.length_drop]; omega
    · rw [List.length_drop]; omega
  · rintro ⟨g1, g2, g3, g4, g5, rfl, l1, l2, l3, l4, l5, x1, x2, x3, x4, x5⟩
    have hd8 : (g1 ++ '-' :: (g2 ++ '-' :: (g3 ++ '-' :: (g4 ++ '-' :: g5)))).drop 8 =
        '-' :: (g2 ++ '-' :: (g3 ++ '-' :: (g4 ++ '-' :: g5))) :=
      List.drop_left' l1
    have hd9 : (g1 ++ '-' :: (g2 ++ '-' :: (g3 ++ '-' :: (g4 ++ '-' :: g5)))).drop 9 =
        g2 ++ '-' :: (g3 ++ '-' :: (g4 ++ '-' :: g5)) := by
      rw [show (9 : Nat) = 8 + 1 from rfl, ← List.drop_drop, hd8,
        List.drop_one, List.tail_cons]
    have hd13 : (g1 ++ '-' :: (g2 ++ '-' :: (g3 ++ '-' :: (g4 ++ '-' :: g5)))).drop 13 =
        '-' :: (g3 ++ '-' :: (g4 ++ '-' :: g5)) := by
      rw [show (13 : Nat) = 9 + 4 from rfl, ← List.drop_drop, hd9,
        List.drop_left' l2]
    have hd14 : (g1 ++ '-' :: (g2 ++ '-' :: (g3 ++ '-' :: (g4 ++ '-' :: g5)))).drop 14 =
        g3 ++ '-' :: (g4 ++ '-' :: g5) := by
      rw [show (14 : Nat) = 13 + 1 from rfl, ← List.drop_drop, hd13,
        List.drop_one, List.tail_cons]
    have hd18 : (g1 ++ '-' :: (g2 ++ '-' :: (g3 ++ '-' :: (g4 ++ '-' :: g5)))).drop 18 =
        '-' :: (g4 ++ '-' :: g5) := by
      rw [show (18 : Nat) = 14 + 4 from rfl, ← List.drop_drop, hd14,
        List.drop_left' l3]
    have hd19 : (g1 ++ '-' :: (g2 ++ '-' :: (g3 ++ '-' :: (g4 ++ '-' :: g5)))).drop 19 =
        g4 ++ '-' :: g5 := by
      rw [show (19 : Nat) = 18 + 1 from rfl, ← List.drop_drop, hd18,
        List.drop_one, List.tail_cons]
    have hd23 : (g1 ++ '-' :: (g2 ++ '-' :: (g3 ++ '-' :: (g4 ++ '-' :: g5)))).drop 23 =
        '-' :: g5 := by
      rw [show (23 : Nat) = 19 + 4 from rfl, ← List.drop_drop, hd19,
        List.drop_left' l4]
    have hd24 : (g1 ++ '-' :: (g2 ++ '-' :: (g3 ++ '-' :: (g4 ++ '-' :: g5)))).drop 24 = g5 := by
      rw [show (24 : Nat) = 23 + 1 from rfl, ← List.drop_drop, hd23,
        List.drop_one, List.tail_cons]
    refine ⟨⟨⟨⟨⟨⟨⟨⟨⟨?_, ?_⟩, ?_⟩, ?_⟩, ?_⟩, ?_⟩, ?_⟩, ?_⟩, ?_⟩, ?_⟩
    · simp only [List.length_append, List.length_cons, l1, l2, l3, l4, l5]
    · rw [List.take_left' l1]; exact x1
    · exact getD_of_drop_cons _ 8 _ _ hd8
    · rw [hd9, List.take_left' l2]; exact x2
    · exact getD_of_drop_cons _ 13 _ _ hd13
    · rw [hd14, List.take_left' l3]; exact x3
    · exact getD_of_drop_cons _ 18 _ _ hd18
    · rw [hd19, List.take_left' l4]; exact x4
    · exact getD_of_drop_cons _ 23 _ _ hd23
    · rw [hd24]; exact x5

theorem matchUuidSrc_eq_isCanonicalUuid (s : String) :
    matchUuidSrc s = isCanonicalUuid s := by
  rw [Bool.eq_iff_iff, matchUuidSrc_iff, isCanonicalUuid_iff]

/-- **C1.** For every credential string, `detectProvider` returns the
provider determined by the fixed rule order of the spec: empty →
Unknown; prefix "hf_" → HuggingFace; prefix "ms-" → ModelScope;
canonical case-insensitive 8-4-4-4-12 hex UUID → VolcEngine; a
30–60-character alphanumeric string → Gitee; otherwise Unknown — each
earlier rule checked before the next (first match wins), as captured
by the independently formulated `classifySpec`. -/
theorem detectProvider_matches_classifySpec (s : String) :
    (detectProvider s).1 = classifySpec s := by
  unfold detectProvider classifySpec
  rw [matchUuidSrc_eq_isCanonicalUuid]
  have hg : matchGiteeSrc s = isGiteeShape s := rfl
  rw [hg]
  split <;> rename_i h1
  · rfl
  · split <;> rename_i h2
    · rfl
    · split <;> rename_i h3
      · rfl
      · split <;> rename_i h4
        · rfl
        · split <;> rfl

/-- **C7** (amended). For every *non-empty* credential string,
`detectProvider` emits exactly one routing-observability event,
carrying the resolved provider and only the first (at most) 4
characters of the credential; it is total, `Unknown` being a valid
terminal classification.  (The empty credential emits no event: see
the counterexample.) -/
theorem detectProvider_logging (k : String) (h : k ≠ "") :
    (detectProvider k).2 = [⟨(detectProvider k).1, jsTake k 4⟩] ∧
    (jsTake k 4).data.length ≤ 4 := by
  constructor
  · unfold detectProvider
    rw [if_neg h]
    split
    · rfl
    · split
      · rfl
      · split
        · rfl
        · split
          · rfl
          · rfl
  · exact List.length_take_le 4 k.data

/-- Witness for C7 at the credential "hf_abc": one event, for
HuggingFace, logging only "hf_a". -/
theorem detectProvider_logging_witness :
    (detectProvider "hf_abc").2 = [⟨Provider.HuggingFace, "hf_a"⟩] := by
  have h := (detectProvider_logging "hf_abc" (by decide)).1
  rw [h]
  decide

/-- **C7 counterexample.** The claim asserts one routing event for
*every* credential; the empty credential, however, returns before
`logProviderRouting` and emits none. -/
theorem detectProvider_logging_counterexample :
    (detectProvider "").2 = [] ∧ ¬ (detectProvider "").2.length = 1 := by
  decide

/-! ## Transcript extractor (`extractPromptAndImages`) -/

/-- A structured content item: `{type:"text", text}` or
`{type:"image_url", image_url?:{url}}` (`none` models a missing
`image_url` member). -/
inductive MessageContentItem
  | text (t : String)
  | imageUrl (u : Option String)
deriving DecidableEq, Repr

/-- `string | MessageContentItem[]` message content. -/
inductive MessageContent
  | str (s : String)
  | items (l : List MessageContentItem)
deriving DecidableEq, Repr

/-- A chat message `{role, content}`. -/
structure Message where
  role : String
  content : MessageContent
deriving DecidableEq, Repr

instance : Inhabited Message := ⟨⟨"", .str ""⟩⟩

/-- The capture group `(?:https?:\/\/|data:image\/)[^\)]+` followed by the
closing `)` of the markdown-image regexp: a scheme alternative, then a
maximal non-empty run of non-`)` characters, then `)`.  Returns the
captured characters and the total number of characters consumed. -/
def parseGroup (cs : List Char) : Option (List Char × Nat) :=
  let p : Option Nat :=
    if ("https://".data).isPrefixOf cs then some 8
    else if ("http://".data).isPrefixOf cs then some 7
    else if ("data:image/".data).isPrefixOf cs then some 11
    else none
  match p with
  | none => none
  | some k =>
    let rest := cs.drop k
    let run := rest.takeWhile (fun c => c ≠ ')')
    if run.length = 0 then none
    else
      match rest.dropWhile (fun c => c ≠ ')') with
      | ')' :: _ => some (cs.take k ++ run, k + run.length + 1)
      | _ => none

/-- The lazy `.*?` alt text of the markdown-image regexp: starting right
after `![`, try the shortest alt first — if `](` followed by a valid
group matches here, succeed; otherwise extend the alt by one
(non-newline) character and retry.  Returns the capture and the number
of characters consumed after `![`. -/
def tryAlt : List Char → Option (List Char × Nat)
  | [] => none
  | c :: cs =>
    let here : Option (List Char × Nat) :=
      match c, cs with
      | ']', '(' :: rest =>
        match parseGroup rest with
        | some p => some (p.1, p.2 + 2)
        | none => none
      | _, _ => none
    match here with
    | some r => some r
    | none =>
      if c = '\n' then none
      else
        match tryAlt cs with
        | some p => some (p.1, p.2 + 1)
        | none => none

/-- Try to match the whole markdown-image regexp
`/!\[.*?\]\(((?:https?:\/\/|data:image\/)[^\)]+)\)/` starting exactly at
the head of `cs`; returns the capture and the match length. -/
def tryMatchAt (cs : List Char) : Option (List Char × Nat) :=
  match cs with
  | '!' :: '[' :: rest =>
    match tryAlt rest with
    | some p => some (p.1, p.2 + 2)
    | none => none
  | _ => none

/-- `String.prototype.matchAll` over the markdown-image regexp: scan left
to right, emit each leftmost match's capture, resume after the match.
The `skip` argument counts characters of the current match still to be
stepped over. -/
def scanAux : Nat → List Char → List String
  | _, [] => []
  | skip + 1, _ :: cs => scanAux skip cs
  | 0, c :: cs =>
    match tryMatchAt (c :: cs) with
    | some p => String.mk p.1 :: scanAux (p.2 - 1) cs
    | none => scanAux 0 cs

/-- All markdown-image references with an `http(s)://` or `data:image/`
target embedded in a plain-text message (source lines 142–145). -/
def extractMarkdownImages (s : String) : List String :=
  scanAux 0 s.data

/-- `userContent.find(item => item.type === "text")?.text || ""`. -/
def promptOfItems (items : List MessageContentItem) : String :=
  match items.find? (fun it => match it with | .text _ => true | _ => false) with
  | some (.text t) => t
  | _ => ""

/-- `.filter(type === "image_url").map(item.image_url?.url || "")
.filter(Boolean)`. -/
def imagesOfItems (items : List MessageContentItem) : List String :=
  (items.filterMap (fun it => match it with
    | .imageUrl u => some (u.getD "")
    | _ => none)).filter (fun s => s ≠ "")

/-- The image set a historical message contributes (step 2 of the
extractor): markdown references for plain-text content, image-item URLs
for structured content. -/
def imagesOfMessage (m : Message) : List String :=
  match m.content with
  | .str s => extractMarkdownImages s
  | .items l => imagesOfItems l

/-- First non-empty image set, scanning in list order (the `break` of
the backward loop). -/
def firstNonEmpty : List (List String) → List String
  | [] => []
  | l :: ls => if l ≠ [] then l else firstNonEmpty ls

/-- Step 3 of the extractor: `finalImages = [...currentImages]`, then each
historical image is pushed only if `!finalImages.includes(img)`. -/
def mergeImages (current historical : List String) : List String :=
  historical.foldl
    (fun acc img => if acc.contains img then acc else acc ++ [img]) current

/-- Step 1's backward loop: the last message whose role is `"user"`,
together with its index. -/
def lastUserSearch (msgs : List Message) : Option (Nat × Message) :=
  msgs.enum.reverse.find? (fun p => p.2.role == "user")

/-- Prompt and current-turn images of the last user message: the content
string itself (no images) for plain text; the first text item and the
image-item URLs for structured content. -/
def currentOfContent : MessageContent → String × List String
  | .str s => (s, [])
  | .items its => (promptOfItems its, imagesOfItems its)

/-- `extractPromptAndImages` from main.ts: last user message's prompt and
current-turn images, plus the image set of the nearest prior
image-bearing message, merged current-first with membership-checked
pushes. -/
def extractPromptAndImages (msgs : List Message) : String × List String :=
  match lastUserSearch msgs with
  | none => ("", [])
  | some (L, m) =>
    let pc := currentOfContent m.content
    let historicalImages :=
      firstNonEmpty ((msgs.take L).reverse.map imagesOfMessage)
    (pc.1, mergeImages pc.2 historicalImages)

/-- C2's claimed merge rule, exactly as the claim words it: historical
images that are not string-equal to any *current-turn* entry, appended
in historical order. -/
def mergeImagesClaimed (current historical : List String) : List String :=
  current ++ historical.filter (fun img => !(current.contains img))

/-- The merge rule the code implements: each historical image is appended
only when not already present among the current images *and the
historical images appended before it*. -/
def histFilter : List String → List String → List String
  | _, [] => []
  | base, x :: xs =>
    if base.contains x then histFilter base xs
    else x :: histFilter (base ++ [x]) xs

theorem mergeImages_eq_histFilter (current hist : List String) :
    mergeImages current hist = current ++ histFilter current hist := by
  induction hist generalizing current with
  | nil => simp [mergeImages, histFilter]
  | cons x xs ih =>
    unfold mergeImages at ih ⊢
    rw [List.foldl_cons]
    unfold histFilter
    by_cases hx : current.contains x = true
    · rw [if_pos hx, if_pos hx]
      exact ih current
    · rw [if_neg hx, if_neg hx]
      rw [ih (current ++ [x])]
      simp [List.append_assoc]

theorem histFilter_nodup_fresh (l base : List String) :
    (histFilter base l).Nodup ∧ ∀ x ∈ histFilter base l, x ∉ base := by
  induction l generalizing base with
  | nil => simp [histFilter]
  | cons x xs ih =>
    unfold histFilter
    by_cases hx : base.contains x = true
    · rw [if_pos hx]
      refine ⟨(ih base).1, fun y hy => (ih base).2 y hy⟩
    · rw [if_neg hx]
      obtain ⟨hnd, hfresh⟩ := ih (base ++ [x])
      have hxbase : x ∉ base := by
        intro hmem
        exact hx (List.elem_iff.mpr hmem)
      constructor
      · refine List.nodup_cons.mpr ⟨?_, hnd⟩
        intro hmem
        have := hfresh x hmem
        simp at this
      · intro y hy
        rcases List.mem_cons.mp hy with rfl | hy'
        · exact hxbase
        · intro hc
          exact hfresh y hy' (List.mem_append_left _ hc)

theorem firstNonEmpty_of_first (f : Message → List String)
    (as : List Message) (b : Message) (bs : List Message)
    (hall : ∀ a ∈ as, f a = []) (hb : f b ≠ []) :
    firstNonEmpty ((as ++ b :: bs).map f) = f b := by
  induction as with
  | nil => simp [firstNonEmpty, hb]
  | cons a as ih =>
    simp only [List.cons_append, List.map_cons, firstNonEmpty]
    rw [if_neg (by simpa using hall a (List.mem_cons_self a as))]
    exact ih (fun a' ha' => hall a' (List.mem_cons_of_mem a ha'))

theorem lastUserSearch_lt (msgs : List Message) (L : Nat) (m : Message)
    (h : lastUserSearch msgs = some (L, m)) : L < msgs.length := by
  have hmem : (L, m) ∈ msgs.enum.reverse := List.mem_of_find?_eq_some h
  rw [List.mem_reverse] at hmem
  have := List.mk_mem_enum_iff_getElem?.mp hmem
  have : L < msgs.length := by
    by_contra hge
    rw [List.getElem?_eq_none (by omega)] at this
    exact Option.noConfusion this
  exact this

theorem reverse_decomp (l : List Message) (j : Nat) (hj : j < l.length) :
    l.reverse =
      (l.drop (j + 1)).reverse ++ l.getD j default :: (l.take j).reverse := by
  rw [List.getD_eq_getElem?_getD, List.getElem?_eq_getElem hj,
    Option.getD_some]
  conv_lhs => rw [← List.take_append_drop j l, List.drop_eq_getElem_cons hj]
  rw [List.reverse_append, List.reverse_cons]
  simp [List.append_assoc]

theorem getD_take_eq (msgs : List Message) (L j : Nat) (hj : j < L) :
    (msgs.take L).getD j default = msgs.getD j default := by
  rw [List.getD_eq_getElem?_getD, List.getD_eq_getElem?_getD,
    List.getElem?_take_of_lt hj]

theorem firstNonEmpty_hist (msgs : List Message) (L j : Nat)
    (hL : L ≤ msgs.length) (hjL : j < L)
    (hne : imagesOfMessage (msgs.getD j default) ≠ [])
    (hfirst : ∀ k, k < L → j < k →
      imagesOfMessage (msgs.getD k default) = []) :
    firstNonEmpty ((msgs.take L).reverse.map imagesOfMessage) =
      imagesOfMessage (msgs.getD j default) := by
  have hjl : j < (msgs.take L).length := by
    rw [List.length_take]; omega
  rw [reverse_decomp (msgs.take L) j hjl]
  rw [firstNonEmpty_of_first imagesOfMessage _ _ _ ?_ ?_]
  · rw [getD_take_eq msgs L j hjL]
  · intro a ha
    rw [List.mem_reverse] at ha
    obtain ⟨i, hi, hgi⟩ := List.mem_iff_getElem.mp ha
    have hlen : (msgs.take L).length = L := List.length_take_of_le hL
    have hk : j + 1 + i < L := by
      rw [List.length_drop, hlen] at hi
      omega
    have hgd : a = msgs.getD (j + 1 + i) default := by
      rw [← hgi, List.getElem_drop, List.getElem_take]
      rw [List.getD_eq_getElem?_getD,
        List.getElem?_eq_getElem (show j + 1 + i < msgs.length by omega),
        Option.getD_some]
    rw [hgd]
    exact hfirst (j + 1 + i) hk (by omega)
  · rw [getD_take_eq msgs L j hjL]
    exact hne

/-- **C2** (amended).  For every transcript whose last user message is at
index `L` (found by `lastUserSearch`) and whose nearest prior
image-bearing message is at index `j`, the extractor's image list is
the current-turn images followed by that message's images filtered by
`histFilter` — i.e. each historical image is appended only when not
already present among the current images *and the historical images
appended before it* (the claim's "not string-equal to any current-turn
entry" misses the second condition; see the counterexample). -/
theorem extract_history_merge_spec (msgs : List Message) (L : Nat)
    (m : Message) (j : Nat)
    (hfind : lastUserSearch msgs = some (L, m))
    (hjL : j < L)
    (hne : imagesOfMessage (msgs.getD j default) ≠ [])
    (hfirst : ∀ k, k < L → j < k →
      imagesOfMessage (msgs.getD k default) = []) :
    (extractPromptAndImages msgs).2 =
      (currentOfContent m.content).2 ++
        histFilter (currentOfContent m.content).2
          (imagesOfMessage (msgs.getD j default)) := by
  have hL : L < msgs.length := lastUserSearch_lt msgs L m hfind
  have hmain : extractPromptAndImages msgs =
      ((currentOfContent m.content).1,
        mergeImages (currentOfContent m.content).2
          (firstNonEmpty ((msgs.take L).reverse.map imagesOfMessage))) := by
    unfold extractPromptAndImages
    rw [hfind]
  rw [hmain]
  simp only
  rw [firstNonEmpty_hist msgs L j (by omega) hjL hne hfirst]
  exact mergeImages_eq_histFilter _ _

/-- Transcript: current turn supplies image A; the previous message
supplies B and C. -/
def historyMsgsBC : List Message :=
  [⟨"user", .items [.imageUrl (some "http://b"), .imageUrl (some "http://c")]⟩,
   ⟨"user", .items [.text "edit", .imageUrl (some "http://a")]⟩]

/-- Transcript: current turn supplies image A; the previous message
supplies A and C (A duplicated across turns). -/
def historyMsgsAC : List Message :=
  [⟨"user", .items [.imageUrl (some "http://a"), .imageUrl (some "http://c")]⟩,
   ⟨"user", .items [.imageUrl (some "http://a")]⟩]

/-- Witness for C2: current A plus earlier B, C merge to [A, B, C]; when
the earlier message repeats A, the merge is [A, C]. -/
theorem extract_history_merge_spec_witness :
    (extractPromptAndImages historyMsgsBC).2 =
      ["http://a", "http://b", "http://c"] ∧
    (extractPromptAndImages historyMsgsAC).2 = ["http://a", "http://c"] := by
  constructor
  · rw [extract_history_merge_spec historyMsgsBC 1
      ⟨"user", .items [.text "edit", .imageUrl (some "http://a")]⟩ 0
      (by decide) (by decide) (by decide) (by decide)]
    decide
  · rw [extract_history_merge_spec historyMsgsAC 1
      ⟨"user", .items [.imageUrl (some "http://a")]⟩ 0
      (by decide) (by decide) (by decide) (by decide)]
    decide

/-- A transcript whose single historical message carries the same image
reference twice. -/
def dupHistMsgs : List Message :=
  [⟨"assistant", .str "![a](http://b) ![a](http://b)"⟩, ⟨"user", .str "hi"⟩]

/-- **C2 counterexample.**  The claim predicts that *every* historical
image not string-equal to a current-turn entry is appended; on a
historical message carrying the same reference twice the code appends
it once, not twice. -/
theorem extract_history_merge_counterexample :
    (extractPromptAndImages dupHistMsgs).2 = ["http://b"] ∧
    firstNonEmpty ((dupHistMsgs.take 1).reverse.map imagesOfMessage) =
      ["http://b", "http://b"] ∧
    (extractPromptAndImages dupHistMsgs).2 ≠
      mergeImagesClaimed []
        (firstNonEmpty ((dupHistMsgs.take 1).reverse.map imagesOfMessage)) := by
  decide

/-- The current-turn image list of a transcript (images of the last user
message). -/
def currentImagesOf (msgs : List Message) : List String :=
  match lastUserSearch msgs with
  | none => []
  | some (_, m) => (currentOfContent m.content).2

/-- **C6** (amended).  The extractor's image list decomposes as
current-turn images followed by a history part `hs`; `hs` has no
duplicates and no element of `hs` equals a current-turn entry — but the
current-turn images themselves are *not* deduplicated (see the
counterexample), so the claimed whole-list Nodup fails. -/
theorem extract_images_invariant (msgs : List Message) :
    ∃ hs : List String,
      (extractPromptAndImages msgs).2 = currentImagesOf msgs ++ hs ∧
      hs.Nodup ∧ ∀ x ∈ hs, x ∉ currentImagesOf msgs := by
  unfold extractPromptAndImages currentImagesOf
  cases hfind : lastUserSearch msgs with
  | none => exact ⟨[], by simp⟩
  | some Lm =>
    obtain ⟨L, m⟩ := Lm
    refine ⟨histFilter (currentOfContent m.content).2
      (firstNonEmpty ((msgs.take L).reverse.map imagesOfMessage)),
      ?_, ?_, ?_⟩
    · exact mergeImages_eq_histFilter _ _
    · exact (histFilter_nodup_fresh _ _).1
    · exact fun x hx => (histFilter_nodup_fresh _ _).2 x hx

/-- A transcript whose current turn supplies the same image twice. -/
def dupCurrentMsgs : List Message :=
  [⟨"user", .items [.imageUrl (some "http://a"), .imageUrl (some "http://a")]⟩]

/-- **C6 counterexample.**  A current turn repeating the same image URL
twice produces a duplicated `images` list: the code never deduplicates
the current-turn images. -/
theorem extract_images_nodup_counterexample :
    (extractPromptAndImages dupCurrentMsgs).2 = ["http://a", "http://a"] ∧
    ¬ (extractPromptAndImages dupCurrentMsgs).2.Nodup := by
  decide

/-! ## ModelScope submit-and-poll adapter (`handleModelScope`) -/

/-- One poll response, abstracting the GET against `/tasks/{taskId}`:
the HTTP success flag (`checkResponse.ok`), the `task_status` field,
the `output_images` list, and the raw payload
(`JSON.stringify(checkData)`). -/
structure PollResponse where
  ok : Bool
  status : String
  outputImages : List String
  raw : String

/-- Outcome of the polling loop: terminal success with the formatted
markdown result and the number of polls issued, terminal failure
carrying the raw status payload, or timeout after the attempt budget. -/
inductive MSOutcome
  | success (result : String) (pollsUsed : Nat)
  | failed (payload : String)
  | timeout
deriving DecidableEq, Repr

/-- `Array.prototype.join(sep)`. -/
def joinSep (sep : String) : List String → String
  | [] => ""
  | [a] => a
  | a :: b :: rest => a ++ sep ++ joinSep sep (b :: rest)

/-- `imageUrls.map(url => ...).join("\n\n") || "图片生成失败"`
(source line 638). -/
def formatImageUrlsMS (urls : List String) : String :=
  let joined := joinSep "\n\n"
    (urls.map (fun u => "![Generated Image](" ++ u ++ ")"))
  if joined = "" then "图片生成失败" else joined

/-- The poll loop of `handleModelScope` (`maxAttempts = 60`): `i` is the
index of the next poll, `fuel` the remaining attempts.  A non-ok
response is logged and skipped but still consumes an attempt; status
`"SUCCEED"` terminates with the formatted URLs and the number of polls
issued; `"FAILED"` terminates with the raw payload; any other status
continues polling; exhausted fuel is the `Timeout` hard failure. -/
def msPollAux (backend : Nat → PollResponse) : Nat → Nat → MSOutcome
  | _, 0 => .timeout
  | i, fuel + 1 =>
    let r := backend i
    if r.ok = false then msPollAux backend (i + 1) fuel
    else if r.status = "SUCCEED" then
      .success (formatImageUrlsMS r.outputImages) (i + 1)
    else if r.status = "FAILED" then .failed r.raw
    else msPollAux backend (i + 1) fuel

/-- The polling phase of `handleModelScope`: up to 60 attempts starting
at poll 0 (each preceded in the source by a fixed 5000 ms sleep, which
has no structural counterpart here). -/
def handleModelScopePoll (backend : Nat → PollResponse) : MSOutcome :=
  msPollAux backend 0 60

/-- A poll response is terminal when the HTTP call succeeded and the
status field is SUCCEED or FAILED. -/
def msTerminal (r : PollResponse) : Prop :=
  r.ok = true ∧ (r.status = "SUCCEED" ∨ r.status = "FAILED")

instance (r : PollResponse) : Decidable (msTerminal r) := by
  unfold msTerminal; infer_instance

theorem msPollAux_step (backend : Nat → PollResponse) (i fuel : Nat)
    (hnt : ¬ msTerminal (backend i)) :
    msPollAux backend i (fuel + 1) = msPollAux backend (i + 1) fuel := by
  unfold msTerminal at hnt
  push_neg at hnt
  by_cases hok : (backend i).ok = true
  · obtain ⟨hs, hf⟩ := hnt hok
    simp [msPollAux, hok, hs, hf]
  · have hok' : (backend i).ok = false := by
      revert hok; cases (backend i).ok <;> simp
    simp [msPollAux, hok']

theorem msPollAux_skip (backend : Nat → PollResponse) (d i fuel : Nat)
    (hbefore : ∀ j, i ≤ j → j < i + d → ¬ msTerminal (backend j)) :
    msPollAux backend i (fuel + d) = msPollAux backend (i + d) fuel := by
  induction d generalizing i fuel with
  | zero => simp
  | succ d ih =>
    have h0 : ¬ msTerminal (backend i) := hbefore i (Nat.le_refl i) (by omega)
    have hshift : fuel + (d + 1) = (fuel + d) + 1 := by omega
    rw [hshift, msPollAux_step backend i (fuel + d) h0]
    rw [ih (i + 1) fuel (fun j hj1 hj2 => hbefore j (by omega) (by omega))]
    congr 1
    omega

/-- **C3.**  The polling loop issues at most 60 polls.  With the first
terminal poll at index `k < 60` (all earlier polls non-terminal,
whether transport errors or non-terminal statuses): if it reports
SUCCEED the adapter succeeds with the reported image URLs after
exactly `k + 1` polls; if it reports FAILED the adapter hard-fails
with the raw payload.  If no poll in the 60-attempt budget is
terminal, the adapter hard-fails with Timeout. -/
theorem modelScope_polling_spec (backend : Nat → PollResponse) :
    ((∀ j, j < 60 → ¬ msTerminal (backend j)) →
      handleModelScopePoll backend = .timeout) ∧
    (∀ k, k < 60 → (∀ j, j < k → ¬ msTerminal (backend j)) →
      (backend k).ok = true →
      ((backend k).status = "SUCCEED" →
        handleModelScopePoll backend =
          .success (formatImageUrlsMS (backend k).outputImages) (k + 1)) ∧
      ((backend k).status = "FAILED" →
        handleModelScopePoll backend = .failed (backend k).raw)) := by
  constructor
  · intro hall
    unfold handleModelScopePoll
    have hskip := msPollAux_skip backend 60 0 0
      (fun j h1 h2 => hall j (by omega))
    simp only [Nat.zero_add] at hskip
    rw [hskip]
    rfl
  · intro k hk hbefore hok
    unfold handleModelScopePoll
    have hskip := msPollAux_skip backend k 0 (60 - k)
      (fun j h1 h2 => hbefore j (by omega))
    have h60 : (60 - k) + k = 60 := by omega
    rw [h60] at hskip
    simp only [Nat.zero_add] at hskip
    have hfuel : 60 - k = (59 - k) + 1 := by omega
    rw [hfuel] at hskip
    constructor
    · intro hs
      rw [hskip]
      simp [msPollAux, hok, hs]
    · intro hf
      rw [hskip]
      simp [msPollAux, hok, hf]

/-- A fake backend: PENDING for polls 0–2, SUCCEED with one image from
poll 3 on. -/
def pendingThenSucceed : Nat → PollResponse :=
  fun i =>
    if i < 3 then ⟨true, "PENDING", [], ""⟩
    else ⟨true, "SUCCEED", ["https://img.example/1.png"], ""⟩

/-- Witness for C3: PENDING three times then SUCCEED yields success
after exactly 4 polls. -/
theorem modelScope_polling_spec_witness :
    handleModelScopePoll pendingThenSucceed =
      .success (formatImageUrlsMS ["https://img.example/1.png"]) 4 := by
  have h := (modelScope_polling_spec pendingThenSucceed).2 3 (by decide)
    (by decide) (by decide)
  exact h.1 (by decide)

/-! ## HuggingFace failover adapter (`handleHuggingFace`) -/

/-- The failover loop of `handleHuggingFace`, instrumented with the list
of URLs actually attempted, in order.  `attempt` abstracts the per-URL
submit–fetch–parse sequence: `.ok imageUrl` models reaching the
successful SSE extraction, `.error e` models any step of the try-block
raising with message `e`.  `lastErr` is the `lastError` variable. -/
def hfLoopTr (attempt : String → Except String String) :
    List String → Option String → Except String String × List String
  | [], lastErr => (.error (lastErr.getD "所有 HuggingFace URL 均失败"), [])
  | u :: us, _lastErr =>
    match attempt u with
    | .ok imageUrl => (.ok ("![Generated Image](" ++ imageUrl ++ ")"), [u])
    | .error e =>
      let r := hfLoopTr attempt us (some e)
      (r.1, u :: r.2)

/-- `handleHuggingFace`'s failover structure: an empty configured pool is
a hard configuration failure raised before any attempt; otherwise the
loop over the pool with no error recorded yet.  (`lastErr` is unused
after the loop ends in success.) -/
def handleHuggingFaceFailover (attempt : String → Except String String)
    (urls : List String) : Except String String × List String :=
  if urls.isEmpty then
    (.error "HuggingFace 配置错误: 未配置任何 API URL", [])
  else hfLoopTr attempt urls none

theorem hfLoopTr_ok (attempt : String → Except String String) :
    ∀ (pre : List String) (u : String) (post : List String) (r : String)
      (le : Option String),
      (∀ v ∈ pre, ∃ e, attempt v = .error e) →
      attempt u = .ok r →
      hfLoopTr attempt (pre ++ u :: post) le =
        (.ok ("![Generated Image](" ++ r ++ ")"), pre ++ [u]) := by
  intro pre
  induction pre with
  | nil =>
    intro u post r le _ hu
    simp [hfLoopTr, hu]
  | cons v vs ih =>
    intro u post r le hpre hu
    obtain ⟨e, he⟩ := hpre v (List.mem_cons_self v vs)
    have hstep : hfLoopTr attempt ((v :: vs) ++ u :: post) le =
        ((hfLoopTr attempt (vs ++ u :: post) (some e)).1,
         v :: (hfLoopTr attempt (vs ++ u :: post) (some e)).2) := by
      simp [hfLoopTr, he]
    rw [hstep,
      ih u post r (some e) (fun w hw => hpre w (List.mem_cons_of_mem v hw)) hu]
    rfl

theorem hfLoopTr_allfail (attempt : String → Except String String) :
    ∀ (l : List String) (le : Option String) (last e : String),
      (∀ v ∈ l, ∃ e', attempt v = .error e') →
      l.getLast? = some last → attempt last = .error e →
      hfLoopTr attempt l le = (.error e, l) := by
  intro l
  induction l with
  | nil =>
    intro le last e _ hlast _
    simp at hlast
  | cons v vs ih =>
    intro le last e hall hlast he
    obtain ⟨e', he'⟩ := hall v (List.mem_cons_self v vs)
    cases vs with
    | nil =>
      have hv : last = v := by
        have := hlast
        simp at this
        exact this.symm
      subst hv
      rw [he'] at he
      injection he with heq
      subst heq
      simp [hfLoopTr, he']
    | cons w ws =>
      have hlast' : (w :: ws).getLast? = some last := by
        rw [← hlast]
        rfl
      have hstep : hfLoopTr attempt (v :: w :: ws) le =
          ((hfLoopTr attempt (w :: ws) (some e')).1,
           v :: (hfLoopTr attempt (w :: ws) (some e')).2) := by
        simp [hfLoopTr, he']
      rw [hstep,
        ih (some e') last e
          (fun x hx => hall x (List.mem_cons_of_mem v hx)) hlast' he]

/-- **C4.**  The failover adapter tries the pool strictly in order: the
first URL whose attempt succeeds yields the adapter's result and ends
the scan (the attempted-URL trace is exactly the prefix up to and
including it); a failing attempt records its error and moves on; if
every URL fails the adapter fails with the last URL's error; and an
empty pool is a hard configuration failure with no attempt made. -/
theorem hf_failover_spec (attempt : String → Except String String)
    (urls : List String) :
    (urls = [] →
      handleHuggingFaceFailover attempt urls =
        (.error "HuggingFace 配置错误: 未配置任何 API URL", [])) ∧
    (∀ pre u post r, urls = pre ++ u :: post →
      (∀ v ∈ pre, ∃ e, attempt v = .error e) →
      attempt u = .ok r →
      handleHuggingFaceFailover attempt urls =
        (.ok ("![Generated Image](" ++ r ++ ")"), pre ++ [u])) ∧
    (∀ last e, (∀ v ∈ urls, ∃ e', attempt v = .error e') →
      urls.getLast? = some last → attempt last = .error e →
      handleHuggingFaceFailover attempt urls = (.error e, urls)) := by
  refine ⟨?_, ?_, ?_⟩
  · rintro rfl
    rfl
  · rintro pre u post r rfl hpre hu
    unfold handleHuggingFaceFailover
    rw [if_neg (by simp)]
    exact hfLoopTr_ok attempt pre u post r none hpre hu
  · intro last e hall hlast he
    have hne : urls ≠ [] := by
      rintro rfl
      simp at hlast
    unfold handleHuggingFaceFailover
    rw [if_neg (by simpa using hne)]
    exact hfLoopTr_allfail attempt urls none last e hall hlast he

/-- A 3-URL pool where the first two attempts raise and the third
succeeds. -/
def hfDemoPool : List String :=
  ["https://a.example", "https://b.example", "https://c.example"]

/-- The per-URL behavior for the witness pool. -/
def hfDemoAttempt : String → Except String String :=
  fun u =>
    if u = "https://a.example" then .error "boom1"
    else if u = "https://b.example" then .error "boom2"
    else .ok "https://img.example/out.png"

/-- Witness for C4: with the first two URLs failing and the third
succeeding, the adapter returns the third URL's result, having
attempted exactly the three URLs (never a fourth). -/
theorem hf_failover_spec_witness :
    handleHuggingFaceFailover hfDemoAttempt hfDemoPool =
      (.ok "![Generated Image](https://img.example/out.png)", hfDemoPool) := by
  rw [(hf_failover_spec hfDemoAttempt hfDemoPool).2.1
    ["https://a.example", "https://b.example"] "https://c.example" []
    "https://img.example/out.png" rfl ?_ rfl]
  · rfl
  · intro v hv
    rcases List.mem_cons.mp hv with rfl | hv'
    · exact ⟨"boom1", rfl⟩
    · rcases List.mem_cons.mp hv' with rfl | hv''
      · exact ⟨"boom2", rfl⟩
      · simp at hv''

/-! ## SSE stream parsing (`extractImageUrlFromSSE`) -/

/-- JS `s.substring(n)` for ASCII strings. -/
def jsDropStr (s : String) (n : Nat) : String :=
  String.mk (s.data.drop n)

/-- JS whitespace for `trim`, restricted to the ASCII whitespace an SSE
protocol line can contain. -/
def isJsWs (c : Char) : Bool :=
  (c = ' ' ∨ c = '\t' ∨ c = '\n' ∨ c = '\r' : Prop)

/-- JS `s.trim()`. -/
def jsTrim (s : String) : String :=
  String.mk (((s.data.dropWhile isJsWs).reverse.dropWhile isJsWs).reverse)

/-- JS `s.split(sep)` for a single-character separator, on character
lists. -/
def splitCharList (sep : Char) : List Char → List (List Char)
  | [] => [[]]
  | c :: rest =>
    match splitCharList sep rest with
    | [] => [[]]
    | seg :: segs =>
      if c = sep then [] :: seg :: segs else (c :: seg) :: segs

/-- JS `s.split(sep)` for a single-character separator. -/
def jsSplit (s : String) (sep : Char) : List String :=
  (splitCharList sep s.data).map String.mk

/-- The line loop of `extractImageUrlFromSSE`.  `parse` abstracts the
try-block around the host `JSON.parse`: `parse payload = some u`
models a successful parse of a truthy array whose first element
carries a truthy `url` field `u`; `none` models a parse failure (the
logged catch) or a missing/falsy element or field, all of which fall
through to the next line with the flag unchanged. -/
def goSSE (parse : String → Option String) :
    List String → Bool → Except String (Option String)
  | [], _ => .ok none
  | line :: rest, isCompleteEvent =>
    if jsStartsWith line "event:" then
      if jsTrim (jsDropStr line 6) = "complete" then goSSE parse rest true
      else if jsTrim (jsDropStr line 6) = "error" then
        .error "HuggingFace API 返回错误"
      else goSSE parse rest false
    else if jsStartsWith line "data:" && isCompleteEvent then
      match parse (jsTrim (jsDropStr line 5)) with
      | some u => .ok (some u)
      | none => goSSE parse rest isCompleteEvent
    else goSSE parse rest isCompleteEvent

/-- `extractImageUrlFromSSE` from main.ts: split the stream on newlines
and scan with the awaiting-data flag initially false; `null` (modelled
`none`) when no payload is found. -/
def extractImageUrlFromSSE (parse : String → Option String)
    (sseStream : String) : Except String (Option String) :=
  goSSE parse (jsSplit sseStream '\n') false

/-- One-line action of the SSE state machine, spec-side. -/
inductive SseStep
  | cont (awaiting : Bool)
  | fail
  | emit (url : String)

/-- Follows the spec's words (§4.4 step 3): an `event:` line of type
`error` is a hard failure; any other `event:` line sets the
awaiting-data state to whether its type is `complete` (so any other
event type resets it); a `data:` line while awaiting parses the
payload and emits its URL (falling through when the payload does not
parse); anything else leaves the state unchanged. -/
def sseLineStep (parse : String → Option String) (awaiting : Bool)
    (line : String) : SseStep :=
  if jsStartsWith line "event:" then
    if jsTrim (jsDropStr line 6) = "error" then .fail
    else .cont (decide (jsTrim (jsDropStr line 6) = "complete"))
  else if jsStartsWith line "data:" && awaiting then
    match parse (jsTrim (jsDropStr line 5)) with
    | some u => .emit u
    | none => .cont awaiting
  else .cont awaiting

/-- Runs the spec-side state machine over the lines. -/
def runSseSpec (parse : String → Option String) :
    List String → Bool → Except String (Option String)
  | [], _ => .ok none
  | l :: ls, b =>
    match sseLineStep parse b l with
    | .fail => .error "HuggingFace API 返回错误"
    | .emit u => .ok (some u)
    | .cont b' => runSseSpec parse ls b'

theorem goSSE_eq_runSseSpec (parse : String → Option String)
    (ls : List String) (b : Bool) :
    goSSE parse ls b = runSseSpec parse ls b := by
  induction ls generalizing b with
  | nil => rfl
  | cons l ls ih =>
    by_cases h1 : jsStartsWith l "event:" = true
    · by_cases h3 : jsTrim (jsDropStr l 6) = "error"
      · have h2 : ¬ jsTrim (jsDropStr l 6) = "complete" := by
          rw [h3]; decide
        simp [goSSE, runSseSpec, sseLineStep, h1, h2, h3]
      · by_cases h2 : jsTrim (jsDropStr l 6) = "complete"
        · simp [goSSE, runSseSpec, sseLineStep, h1, h2, h3, ih]
        · simp [goSSE, runSseSpec, sseLineStep, h1, h2, h3, ih]
    · by_cases h4 : (jsStartsWith l "data:" && b) = true
      · cases hp : parse (jsTrim (jsDropStr l 5)) with
        | some u => simp [goSSE, runSseSpec, sseLineStep, h1, h4, hp]
        | none => simp [goSSE, runSseSpec, sseLineStep, h1, h4, hp, ih]
      · simp [goSSE, runSseSpec, sseLineStep, h1, h4, ih]

/-- **C5.**  The SSE parser is the line state machine of the spec: it
tracks the most recent `event:` line, hard-fails on event type
`error`, returns the payload URL of the first `data:` line following
an event of type `complete`, and any other event type resets the
awaiting-data state so later data lines are ignored (until another
`complete`).  The host `JSON.parse`+`data[0].url` payload extraction
is the abstract `parse` parameter on both sides. -/
theorem extractImageUrlFromSSE_spec (parse : String → Option String)
    (sseStream : String) :
    extractImageUrlFromSSE parse sseStream =
      runSseSpec parse (jsSplit sseStream '\n') false :=
  goSSE_eq_runSseSpec parse (jsSplit sseStream '\n') false

/-! ## Response normalizer (VolcEngine lines 336–345, Gitee 464–474,
527–537 — the three copies are textually identical) -/

/-- A generated-image entry `{url?, b64_json?}` of the backend's `data`
array. -/
structure GeneratedImage where
  url : Option String
  b64Json : Option String
deriving DecidableEq, Repr

/-- JS truthiness of an optional string field (`if (img.b64_json)`):
present and non-empty. -/
def truthyOptStr : Option String → Bool
  | some s => decide (s ≠ "")
  | none => false

/-- The inline-data markdown form; the source hardcodes the
`image/png` mime. -/
def mdDataImage (b : String) : String :=
  "![Generated Image](data:image/png;base64," ++ b ++ ")"

/-- The bare-URL markdown form. -/
def mdUrlImage (u : String) : String :=
  "![Generated Image](" ++ u ++ ")"

/-- The per-entry mapping of the normalizer: prefer `b64_json` when
truthy, else `url` when truthy, else the empty string (filtered out
by `.filter(Boolean)`). -/
def fmtOneSrc (img : GeneratedImage) : String :=
  if truthyOptStr img.b64Json then mdDataImage (img.b64Json.getD "")
  else if truthyOptStr img.url then mdUrlImage (img.url.getD "")
  else ""

/-- The normalizer:
`.map(...).filter(Boolean).join("\n\n") || "图片生成失败"`. -/
def formatGeneratedImages (l : List GeneratedImage) : String :=
  if joinSep "\n\n" ((l.map fmtOneSrc).filter (fun s => s ≠ "")) = "" then
    "图片生成失败"
  else joinSep "\n\n" ((l.map fmtOneSrc).filter (fun s => s ≠ ""))

/-- Follows the spec's words (§4.5): per entry, prefer inline data over
a bare URL when both are present; skip entries with neither. -/
def fmtOneSpec (img : GeneratedImage) : Option String :=
  if truthyOptStr img.b64Json then some (mdDataImage (img.b64Json.getD ""))
  else if truthyOptStr img.url then some (mdUrlImage (img.url.getD ""))
  else none

/-- Follows the spec's words (§4.5): join the formatted entries with a
blank line; an empty result list normalizes to the fixed failure
placeholder rather than an empty body. -/
def normalizeSpec (l : List GeneratedImage) : String :=
  if (l.filterMap fmtOneSpec).isEmpty then "图片生成失败"
  else joinSep "\n\n" (l.filterMap fmtOneSpec)

theorem mdDataImage_ne (b : String) : mdDataImage b ≠ "" := by
  intro h
  have hlen := congrArg String.length h
  simp [mdDataImage, String.length_append] at hlen
  exact absurd hlen.2 (by decide)

theorem mdUrlImage_ne (u : String) : mdUrlImage u ≠ "" := by
  intro h
  have hlen := congrArg String.length h
  simp [mdUrlImage, String.length_append] at hlen
  exact absurd hlen.2 (by decide)

theorem fmtOne_cases (img : GeneratedImage) :
    (fmtOneSrc img = "" ∧ fmtOneSpec img = none) ∨
    (∃ s, fmtOneSrc img = s ∧ fmtOneSpec img = some s ∧ s ≠ "") := by
  unfold fmtOneSrc fmtOneSpec
  by_cases hb : truthyOptStr img.b64Json = true
  · right
    exact ⟨_, by rw [if_pos hb], by rw [if_pos hb], mdDataImage_ne _⟩
  · by_cases hu : truthyOptStr img.url = true
    · right
      refine ⟨mdUrlImage (img.url.getD ""), ?_, ?_, mdUrlImage_ne _⟩
      · rw [if_neg hb, if_pos hu]
      · rw [if_neg hb, if_pos hu]
    · left
      exact ⟨by rw [if_neg hb, if_neg hu], by rw [if_neg hb, if_neg hu]⟩

theorem map_filter_eq_filterMap (l : List GeneratedImage) :
    (l.map fmtOneSrc).filter (fun s => s ≠ "") = l.filterMap fmtOneSpec := by
  induction l with
  | nil => rfl
  | cons img t ih =>
    rw [List.map_cons, List.filter_cons, List.filterMap_cons]
    rcases fmtOne_cases img with ⟨h1, h2⟩ | ⟨s, h1, h2, h3⟩
    · rw [h1, h2, if_neg (by simp)]
      exact ih
    · rw [h1, h2, if_pos (by simp [h3])]
      rw [ih]

theorem filterMap_fmtOneSpec_nonempty (l : List GeneratedImage) :
    ∀ s ∈ l.filterMap fmtOneSpec, s ≠ "" := by
  intro s hs
  obtain ⟨img, _, himg⟩ := List.mem_filterMap.mp hs
  rcases fmtOne_cases img with ⟨_, h2⟩ | ⟨t, _, h2, h3⟩
  · rw [h2] at himg
    exact Option.noConfusion himg
  · rw [h2] at himg
    injection himg with h4
    exact h4 ▸ h3

theorem joinSep_ne_empty (sep a : String) (rest : List String)
    (ha : a ≠ "") : joinSep sep (a :: rest) ≠ "" := by
  cases rest with
  | nil => exact ha
  | cons b t =>
    intro h
    have hd := congrArg String.data h
    simp only [joinSep, String.data_append] at hd
    have : a.data = [] := (List.append_eq_nil.mp
      ((List.append_eq_nil.mp hd).1)).1
    exact ha (String.ext this)

/-- **C8.**  The normalizer formats each entry preferring inline base64
data over a bare URL when both are present, skips entries with
neither, joins the formatted entries with a blank line, and
normalizes an empty result list to the fixed non-empty failure
placeholder. -/
theorem formatGeneratedImages_spec (l : List GeneratedImage) :
    formatGeneratedImages l = normalizeSpec l := by
  unfold formatGeneratedImages normalizeSpec
  rw [map_filter_eq_filterMap]
  cases hp : l.filterMap fmtOneSpec with
  | nil => rfl
  | cons a t =>
    have ha : a ≠ "" :=
      filterMap_fmtOneSpec_nonempty l a (hp ▸ List.mem_cons_self a t)
    rw [if_neg (joinSep_ne_empty "\n\n" a t ha)]
    rfl

/-! ## Entry point: stream flag and response envelope
(`handleChatCompletions`, lines 894–991) -/

/-- The body fields `handleChatCompletions` and the adapters read:
`model`, `messages`, `stream`, `size`, and the VolcEngine passthrough
`response_format`. -/
structure ChatReq where
  model : Option String
  messages : List Message
  stream : Option Bool
  size : Option String
  responseFormat : Option String

/-- The arguments an adapter call actually consumes: the credential,
the `model`/`size`/`response_format` body fields, and the canonical
prompt and image list. -/
structure AdapterInput where
  apiKey : String
  model : Option String
  size : Option String
  responseFormat : Option String
  prompt : String
  images : List String

/-- One piece of the streaming envelope: the content chunk, the
finish-reason chunk, and the `[DONE]` marker (per-chunk ids and
timestamps come from `crypto.randomUUID`/`Date.now` and are outside
the model). -/
inductive Chunk
  | contentChunk (model content : String)
  | endChunk (model : String)
  | doneMarker

/-- JS `v || d` on an optional string field: the default replaces a
missing *or empty* string. -/
def jsOrStr (v : Option String) (d : String) : String :=
  match v with
  | some s => if s = "" then d else s
  | none => d

/-- The responses the post-auth part of `handleChatCompletions` can
produce. -/
inductive HandlerResponse
  | authInvalid
  | streamed (chunks : List Chunk)
  | plain (model content : String)

/-- The post-auth core of `handleChatCompletions`: classify the key,
reject `Unknown` as an authentication failure, extract the canonical
request, dispatch to the selected provider's adapter (`gen` abstracts
the four network-bound adapters), then wrap the same content in
either the streamed envelope (content chunk, finish chunk, `[DONE]`)
or the plain JSON envelope.  `requestBody.stream === true` is
`req.stream = some true`, and `requestBody.model || "unknown-model"`
is `jsOrStr req.model "unknown-model"`. -/
def handleChatCompletions (gen : Provider → AdapterInput → String)
    (apiKey : String) (req : ChatReq) : HandlerResponse :=
  if (detectProvider apiKey).1 = Provider.Unknown then .authInvalid
  else
    if req.stream = some true then
      .streamed [.contentChunk (jsOrStr req.model "unknown-model")
          (gen (detectProvider apiKey).1
            ⟨apiKey, req.model, req.size, req.responseFormat,
              (extractPromptAndImages req.messages).1,
              (extractPromptAndImages req.messages).2⟩),
        .endChunk (jsOrStr req.model "unknown-model"), .doneMarker]
    else
      .plain (jsOrStr req.model "unknown-model")
        (gen (detectProvider apiKey).1
          ⟨apiKey, req.model, req.size, req.responseFormat,
            (extractPromptAndImages req.messages).1,
            (extractPromptAndImages req.messages).2⟩)

/-- **C9.**  Two requests identical except for the `stream` flag get
the same provider, the same canonical request, the same adapter call
and the same generated content `c`; the flag only selects the
envelope: `some true` wraps `c` in the two SSE chunks plus the
terminal marker, anything else produces the plain JSON envelope
around the same `c`. -/
theorem stream_flag_envelope_only (gen : Provider → AdapterInput → String)
    (apiKey : String) (req : ChatReq)
    (h : (detectProvider apiKey).1 ≠ Provider.Unknown) :
    ∃ c, c = gen (detectProvider apiKey).1
        ⟨apiKey, req.model, req.size, req.responseFormat,
          (extractPromptAndImages req.messages).1,
          (extractPromptAndImages req.messages).2⟩ ∧
      ∀ s : Option Bool,
        handleChatCompletions gen apiKey { req with stream := s } =
          if s = some true then
            .streamed [.contentChunk (jsOrStr req.model "unknown-model") c,
              .endChunk (jsOrStr req.model "unknown-model"), .doneMarker]
          else .plain (jsOrStr req.model "unknown-model") c := by
  refine ⟨_, rfl, ?_⟩
  intro s
  unfold handleChatCompletions
  rw [if_neg h]

/-- A constant fake adapter layer. -/
def demoGen : Provider → AdapterInput → String := fun _ _ => "IMG"

/-- A minimal request body. -/
def demoReq : ChatReq :=
  ⟨none, [⟨"user", .str "a red fox"⟩], none, none, none⟩

/-- Witness for C9: with credential `hf_abc`, the same content appears
in the streamed envelope for `stream: true` and in the plain envelope
otherwise. -/
theorem stream_flag_envelope_only_witness :
    handleChatCompletions demoGen "hf_abc"
        { demoReq with stream := some true } =
      .streamed [.contentChunk "unknown-model" "IMG",
        .endChunk "unknown-model", .doneMarker] ∧
    handleChatCompletions demoGen "hf_abc" { demoReq with stream := none } =
      .plain "unknown-model" "IMG" := by
  obtain ⟨c, hc, hall⟩ := stream_flag_envelope_only demoGen "hf_abc" demoReq
    (by decide)
  have hc' : c = "IMG" := hc.trans rfl
  constructor
  · rw [hall (some true), if_pos rfl, hc']
    rfl
  · rw [hall none, if_neg (by simp), hc']
    rfl

/-! ## HuggingFace payload dimensions (lines 699–723) -/

/-- A JS value as relevant to `size.split('x').map(Number)` and the
`|| 1024` fallbacks: `undefined` (destructuring past the array's
end), `NaN`, an infinity, or a finite number (the strings at issue
parse to integers). -/
inductive JsVal
  | undef
  | nan
  | inf (positive : Bool)
  | int (n : Int)
deriving DecidableEq, Repr

/-- JS truthiness on such a value: `undefined`, `NaN` and `0` are
falsy; infinities and non-zero numbers are truthy. -/
def truthyJs : JsVal → Bool
  | .undef => false
  | .nan => false
  | .inf _ => true
  | .int n => decide (n ≠ 0)

/-- `v || d` with a numeric default. -/
def jsOr (v : JsVal) (d : Int) : JsVal :=
  if truthyJs v then v else .int d

/-- `reqBody.size || HuggingFaceConfig.defaultSize` — JS `||` also
replaces the empty string with the default "2048x2048". -/
def hfResolvedSize (reqSize : Option String) : String :=
  match reqSize with
  | some s => if s = "" then "2048x2048" else s
  | none => "2048x2048"

/-- `size.split('x').map(Number)`, the host `Number` conversion
abstracted as `toNumber`. -/
def hfSizeParts (toNumber : String → JsVal) (size : String) : List JsVal :=
  (jsSplit size 'x').map toNumber

/-- The `width` and `height` values of the submitted payload
`{data: [prompt, height || 1024, width || 1024, steps, seed, false]}`:
`const [width, height] = size.split('x').map(Number)` makes a missing
second part `undefined`, and each dimension gets the `|| 1024`
fallback. -/
def hfPayloadDims (toNumber : String → JsVal) (size : String) :
    JsVal × JsVal :=
  (jsOr ((hfSizeParts toNumber size).getD 0 .undef) 1024,
   jsOr ((hfSizeParts toNumber size).getD 1 .undef) 1024)

theorem jsOr_spec (v : JsVal) (d : Int) (hd : d ≠ 0) :
    (jsOr v d ≠ .nan ∧ jsOr v d ≠ .undef ∧ jsOr v d ≠ .int 0) ∧
    (truthyJs v = true → jsOr v d = v) ∧
    (truthyJs v = false → jsOr v d = .int d) := by
  unfold jsOr
  cases v with
  | undef => simp [truthyJs, hd]
  | nan => simp [truthyJs, hd]
  | inf b => simp [truthyJs]
  | int n =>
    by_cases hn : n = 0
    · subst hn
      simp [truthyJs, hd]
    · simp [truthyJs, hn]

/-- **C10** (amended).  For every host number conversion and size
string, neither payload dimension is `NaN`, `undefined` or `0`: a
truthy parsed part is used as-is, and any falsy part (NaN from an
unparseable string, 0 from an empty part, undefined from a missing
part) silently falls back to 1024.  (The claim's "always finite
positive" is too strong — truthy parses include negative and infinite
values; see the counterexample.) -/
theorem hf_dims_never_nan (toNumber : String → JsVal) (size : String) :
    ((hfPayloadDims toNumber size).1 ≠ .nan ∧
     (hfPayloadDims toNumber size).1 ≠ .undef ∧
     (hfPayloadDims toNumber size).1 ≠ .int 0) ∧
    ((hfPayloadDims toNumber size).2 ≠ .nan ∧
     (hfPayloadDims toNumber size).2 ≠ .undef ∧
     (hfPayloadDims toNumber size).2 ≠ .int 0) ∧
    (truthyJs ((hfSizeParts toNumber size).getD 0 .undef) = true →
      (hfPayloadDims toNumber size).1 =
        (hfSizeParts toNumber size).getD 0 .undef) ∧
    (truthyJs ((hfSizeParts toNumber size).getD 0 .undef) = false →
      (hfPayloadDims toNumber size).1 = .int 1024) ∧
    (truthyJs ((hfSizeParts toNumber size).getD 1 .undef) = true →
      (hfPayloadDims toNumber size).2 =
        (hfSizeParts toNumber size).getD 1 .undef) ∧
    (truthyJs ((hfSizeParts toNumber size).getD 1 .undef) = false →
      (hfPayloadDims toNumber size).2 = .int 1024) := by
  obtain ⟨hA, hB, hC⟩ :=
    jsOr_spec ((hfSizeParts toNumber size).getD 0 .undef) 1024 (by decide)
  obtain ⟨hA', hB', hC'⟩ :=
    jsOr_spec ((hfSizeParts toNumber size).getD 1 .undef) 1024 (by decide)
  exact ⟨hA, hA', hB, hC, hB', hC'⟩

/-- The host `Number` conversion tabulated at the strings the
counterexample input produces: ECMAScript gives `Number("-5") = -5`
and `Number("7") = 7`. -/
def numberAtNeg5x7 : String → JsVal :=
  fun s => if s = "-5" then .int (-5) else if s = "7" then .int 7 else .nan

/-- "Finite positive number", as the claim words it. -/
def finitePositive : JsVal → Prop
  | .int n => 0 < n
  | _ => False

instance (v : JsVal) : Decidable (finitePositive v) := by
  unfold finitePositive
  cases v <;> infer_instance

/-- **C10 counterexample.**  A caller-supplied size "-5x7" resolves
unchanged, splits into parts parsing to -5 and 7, and -5 is truthy in
JS, so the submitted width is -5 — not a positive number. -/
theorem hf_dims_counterexample :
    hfResolvedSize (some "-5x7") = "-5x7" ∧
    (hfPayloadDims numberAtNeg5x7 (hfResolvedSize (some "-5x7"))).1 =
      .int (-5) ∧
    ¬ finitePositive
      (hfPayloadDims numberAtNeg5x7 (hfResolvedSize (some "-5x7"))).1 := by
  decide

/-- The host `Number` conversion at the parts of "2K": `Number("2K")`
is NaN. -/
def numberAt2K : String → JsVal := fun _ => .nan

/-- Witness for C10 at size "2K": the single split part parses to NaN,
the second is undefined, and both payload dimensions fall back
to 1024. -/
theorem hf_dims_never_nan_witness :
    (hfPayloadDims numberAt2K "2K").1 = .int 1024 ∧
    (hfPayloadDims numberAt2K "2K").2 = .int 1024 := by
  have h := hf_dims_never_nan numberAt2K "2K"
  exact ⟨h.2.2.2.1 (by decide), h.2.2.2.2.2 (by decide)⟩

end ImgRouter
